import Mathlib

/-!
Shallow embedding of the africa-ai learning application: the student
dashboard mutations (module completion, badge award, quiz submission,
module reset, module generation), the progress pages' upserts, the pure
scoring/reward helpers, and the database schema's unique constraint and
row-level-security policies from the migration file.
-/

namespace AfricaAI

/-- A quiz question as held on a client-side module object. -/
structure QuizQuestion where
  id : String
  question : String
  options : List String
  correct_answer : String
deriving DecidableEq, Repr

/-- The client-side module object used by the student dashboard. -/
structure Module where
  module_id : String
  title : String
  description : String
  difficulty : String
  estimated_duration : ℚ
  points_reward : ℤ
  progress_percentage : ℤ
  is_completed : Bool
  is_read_only : Bool
  quizzes : List QuizQuestion
deriving DecidableEq, Repr

/-- A row of the user_module_progress table (columns written by the app). -/
structure ProgressRow where
  user_id : String
  module_id : String
  title : String
  description : String
  difficulty : String
  estimated_duration : ℚ
  points_reward : ℤ
  detailed_content : String
  level : ℤ
  progress_percentage : ℤ
  is_completed : Bool
  is_read_only : Bool
deriving DecidableEq, Repr

/-- A row of the user_badges table as inserted by awardBadgeMutation. -/
structure BadgeRow where
  user_id : String
  name : String
  description : String
  icon : String
  module_id : String
deriving DecidableEq, Repr

/-- A row of the profiles table (columns the dashboard reads/writes). -/
structure ProfileRow where
  id : String
  full_name : String
  total_points : ℤ
  streak_days : ℤ
deriving DecidableEq, Repr

/-- The database state visible to the modelled operations. -/
structure DBState where
  profiles : List ProfileRow
  progress : List ProgressRow
  badges : List BadgeRow
deriving DecidableEq, Repr

/-- Lookup in the client-side answers record: answers[quizId]. -/
def lookupAnswer (answers : List (String × String)) (quizId : String) : Option String :=
  (answers.find? (fun a => a.1 == quizId)).map (fun a => a.2)

/-- Number of quiz questions whose recorded answer equals the correct answer. -/
def countCorrect (quizzes : List QuizQuestion) (answers : List (String × String)) : ℕ :=
  (quizzes.filter (fun quiz => lookupAnswer answers quiz.id == some quiz.correct_answer)).length

/-- calculateQuizScore: (correctCount / moduleQuizzes.length) * 100, 0 when no quizzes. -/
def calculateQuizScore (quizzes : List QuizQuestion) (answers : List (String × String)) : ℚ :=
  if quizzes.length = 0 then 0
  else ((countCorrect quizzes answers : ℚ) / (quizzes.length : ℚ)) * 100

/-- JavaScript Math.round: half-up rounding, floor (x + 1/2). -/
def jsRound (q : ℚ) : ℤ := ⌊q + 1 / 2⌋

/-- calculatePointsReward from the dashboard: base points from duration,
difficulty multiplier (1 for unrecognized difficulty strings), rounded to
a multiple of 5 with a floor of 5. -/
def calculatePointsReward (duration : ℚ) (difficulty : String) : ℤ :=
  let basePoints : ℤ := jsRound (duration / 10)
  let multiplier : ℚ :=
    if difficulty = "beginner" then 1
    else if difficulty = "intermediate" then 3 / 2
    else if difficulty = "advanced" then 2
    else 1
  let calculatedPoints : ℤ := jsRound ((basePoints : ℚ) * multiplier)
  max 5 (jsRound ((calculatedPoints : ℚ) / 5) * 5)

/-- difficulty.charAt(0).toUpperCase() + difficulty.slice(1). -/
def capitalizeFirst (str : String) : String :=
  match str.data with
  | [] => ""
  | c :: rest => String.mk (c.toUpper :: rest)

/-- The badge row built by awardBadgeMutation for a user and module. -/
def mkBadge (userId : String) (m : Module) : BadgeRow :=
  { user_id := userId
    name := capitalizeFirst m.difficulty ++ " Badge"
    description := "Completed " ++ m.title
    icon := "star"
    module_id := m.module_id }

/-- Fetch of the profile row: .from("profiles").select().eq("id", userId).single(). -/
def findProfile (s : DBState) (userId : String) : Option ProfileRow :=
  s.profiles.find? (fun p => p.id == userId)

/-- Whether the user's profile row exists. -/
def hasProfile (userId : String) (s : DBState) : Prop :=
  (findProfile s userId).isSome = true

/-- The total_points of the user's profile row (0 when absent, as profile?.total_points || 0). -/
def totalPoints (userId : String) (s : DBState) : ℤ :=
  ((findProfile s userId).map (fun p => p.total_points)).getD 0

/-- .from("profiles").update(\x7b total_points \x7d).eq("id", userId). -/
def updateProfilePoints (ps : List ProfileRow) (userId : String) (pts : ℤ) : List ProfileRow :=
  ps.map (fun p => if p.id == userId then { p with total_points := pts } else p)

/-- Row filter .eq("module_id", mid).eq("user_id", uid) on user_module_progress. -/
def umpMatch (uid mid : String) (r : ProgressRow) : Bool :=
  r.module_id == mid && r.user_id == uid

/-- completeModuleMutation: set the matching progress row to 100 percent,
completed, read-only; add the module's points_reward to the profile's
total_points regardless of the score; insert a badge row exactly when
score >= 85. Throws (state unchanged) when the profile is absent. -/
def completeModuleMutation (userId : String) (m : Module) (score : ℚ) (s : DBState) : DBState :=
  match findProfile s userId with
  | none => s
  | some profile =>
    let progress1 := s.progress.map (fun r =>
      if umpMatch userId m.module_id r then
        { r with progress_percentage := 100, is_completed := true, is_read_only := true }
      else r)
    let profiles1 := updateProfilePoints s.profiles userId (profile.total_points + m.points_reward)
    let badges1 := if 85 ≤ score then s.badges ++ [mkBadge userId m] else s.badges
    { profiles := profiles1, progress := progress1, badges := badges1 }

/-- resetModuleForRetake: zero the matching progress row's percentage and
clear its completed/read-only flags; nothing else is written. -/
def resetModuleForRetake (userId mid : String) (s : DBState) : DBState :=
  { s with progress := s.progress.map (fun r =>
      if umpMatch userId mid r then
        { r with progress_percentage := 0, is_completed := false, is_read_only := false }
      else r) }

/-- The percentage submitQuizAnswer writes:
Math.min(Math.floor((completedCount / quizCount) * 100), 100); with zero
quizzes the JavaScript quotient is Infinity and the min yields 100. -/
def progressAfterQuiz (completedCount quizCount : ℕ) : ℤ :=
  if quizCount = 0 then 100
  else ((min (100 * completedCount / quizCount) 100 : ℕ) : ℤ)

/-- submitQuizAnswer, database effect: no write on read-only or completed
modules, on a missing answer, or on an incorrect answer; on a correct
answer add 5 points to the profile and write the new progress percentage
to the matching progress row. completedQuizzesCount is the client-side
completedQuizzes.size before this submission. -/
def submitQuizAnswer (userId : String) (m : Module) (completedQuizzesCount : ℕ)
    (quiz : QuizQuestion) (userAnswer : String) (s : DBState) : DBState :=
  if m.is_read_only || m.is_completed then s
  else if userAnswer = "" then s
  else if userAnswer ≠ quiz.correct_answer then s
  else
    match findProfile s userId with
    | none => s
    | some profile =>
      let profiles1 := updateProfilePoints s.profiles userId (profile.total_points + 5)
      let pct := progressAfterQuiz (completedQuizzesCount + 1) m.quizzes.length
      let progress1 := s.progress.map (fun r =>
        if umpMatch userId m.module_id r then { r with progress_percentage := pct } else r)
      { s with profiles := profiles1, progress := progress1 }

/-- A fresh user_module_progress row as written by an upsert that supplies
only user_id, module_id, progress_percentage and is_completed. -/
def newProgressRow (uid mid : String) (pct : ℤ) (completed : Bool) : ProgressRow :=
  { user_id := uid, module_id := mid, title := "", description := "", difficulty := ""
    estimated_duration := 0, points_reward := 0, detailed_content := "", level := 1
    progress_percentage := pct, is_completed := completed, is_read_only := false }

/-- Upsert on user_module_progress keyed by the UNIQUE(user_id, module_id)
constraint: update the matching row's supplied columns when it exists,
insert a fresh row otherwise. -/
def upsertProgress (uid mid : String) (pct : ℤ) (completed : Bool)
    (rows : List ProgressRow) : List ProgressRow :=
  if rows.any (umpMatch uid mid) then
    rows.map (fun r =>
      if umpMatch uid mid r then { r with progress_percentage := pct, is_completed := completed }
      else r)
  else rows ++ [newProgressRow uid mid pct completed]

/-- updateProgress from ModulePage: newProgress = min(progress + increment, 100),
isComplete = (newProgress === 100), upserted with user_id and module_id.
The page's progress state is the loaded row's percentage (|| 0). -/
def updateProgress (userId mid : String) (increment : ℤ) (s : DBState) : DBState :=
  let progress : ℤ :=
    ((s.progress.find? (umpMatch userId mid)).map (fun r => r.progress_percentage)).getD 0
  let newProgress := min (progress + increment) 100
  let isComplete := newProgress == 100
  { s with progress := upsertProgress userId mid newProgress isComplete s.progress }

/-- handleMarkComplete from ModuleDetail: upsert the row for the user and
module with is_completed true and progress_percentage 100. -/
def handleMarkComplete (userId mid : String) (s : DBState) : DBState :=
  { s with progress := upsertProgress userId mid 100 true s.progress }

/-- A module object returned by the generateModules API. -/
structure GenModule where
  id : String
  title : String
  description : String
  difficulty : String
  estimated_duration : ℚ
  detailed_content : String
deriving DecidableEq, Repr

/-- The initial progress row generateModulesMutation inserts for one
generated module: zero progress, consistent points, level from the count
of completed modules. -/
def initialProgressRow (userId : String) (completedModules : ℕ) (gm : GenModule) : ProgressRow :=
  { user_id := userId
    module_id := gm.id
    title := gm.title
    description := gm.description
    difficulty := gm.difficulty
    estimated_duration := gm.estimated_duration
    points_reward := calculatePointsReward gm.estimated_duration gm.difficulty
    detailed_content := gm.detailed_content
    level := (completedModules / 3 : ℕ) + 1
    progress_percentage := 0
    is_completed := false
    is_read_only := false }

/-- The (user_id, module_id) keys of a progress row list. -/
def umpKeys (rows : List ProgressRow) : List (String × String) :=
  rows.map (fun r => (r.user_id, r.module_id))

/-- Plain INSERT into user_module_progress under the schema's
UNIQUE(user_id, module_id) constraint: the whole batch is appended when
its keys are fresh and internally distinct, otherwise the database
rejects it with duplicate-key error code 23505. -/
def insertProgressRows (rows newRows : List ProgressRow) : Except String (List ProgressRow) :=
  if (umpKeys newRows).Nodup ∧ ∀ k ∈ umpKeys newRows, k ∉ umpKeys rows
  then .ok (rows ++ newRows) else .error "23505"

/-- generateModulesMutation: build initial rows for the API's modules and
insert them; a duplicate-key rejection surfaces as "Modules already exist". -/
def generateModulesMutation (userId : String) (completedModules : ℕ)
    (apiModules : List GenModule) (s : DBState) : Except String DBState :=
  if apiModules.isEmpty then .error "No modules returned from API"
  else
    match insertProgressRows s.progress (apiModules.map (initialProgressRow userId completedModules)) with
    | .ok rows => .ok { s with progress := rows }
    | .error code => .error (if code == "23505" then "Modules already exist" else code)

/-- The database-writing operations of the application. -/
inductive Op where
  | complete (userId : String) (m : Module) (score : ℚ)
  | reset (userId mid : String)
  | submitQuiz (userId : String) (m : Module) (completedQuizzesCount : ℕ)
      (quiz : QuizQuestion) (userAnswer : String)
  | updateProg (userId mid : String) (increment : ℤ)
  | markComplete (userId mid : String)
  | generate (userId : String) (completedModules : ℕ) (apiModules : List GenModule)
deriving DecidableEq, Repr

/-- One operation applied to the database state; a rejected generation
leaves the state unchanged. -/
def stepOp (op : Op) (s : DBState) : DBState :=
  match op with
  | .complete userId m score => completeModuleMutation userId m score s
  | .reset userId mid => resetModuleForRetake userId mid s
  | .submitQuiz userId m c quiz ans => submitQuizAnswer userId m c quiz ans s
  | .updateProg userId mid inc => updateProgress userId mid inc s
  | .markComplete userId mid => handleMarkComplete userId mid s
  | .generate userId c mods =>
    match generateModulesMutation userId c mods s with
    | .ok s1 => s1
    | .error _ => s

/-- A sequence of operations applied in order. -/
def runOps (ops : List Op) (s : DBState) : DBState :=
  ops.foldl (fun s1 op => stepOp op s1) s

/-- Number of badge rows for a (user, module) combination. -/
def badgeCount (uid mid : String) (s : DBState) : ℕ :=
  (s.badges.filter (fun b => b.user_id == uid && b.module_id == mid)).length

/-- Whether an operation is a module completion by uid of module mid with
a passing (>= 85) score. -/
def passingComplete (uid mid : String) : Op → Bool
  | .complete u m score => u == uid && m.module_id == mid && decide (85 ≤ score)
  | _ => false

/-- The reduce step of the modules-query deduplication: replace the first
row with the same module_id when the new row is completed and the old one
is not, or has strictly greater progress; append when no row matches. -/
def dedupInsert : List ProgressRow → ProgressRow → List ProgressRow
  | [], current => [current]
  | existing :: rest, current =>
    if existing.module_id == current.module_id then
      if current.is_completed && !existing.is_completed then current :: rest
      else if existing.progress_percentage < current.progress_percentage then current :: rest
      else existing :: rest
    else existing :: dedupInsert rest current

/-- uniqueModules: the fold of the deduplication reduce over the fetched rows. -/
def uniqueModules (data : List ProgressRow) : List ProgressRow :=
  data.foldl dedupInsert []

/-- SQL commands governed by row-level security. -/
inductive SqlCmd where
  | select
  | insert
  | update
  | delete
deriving DecidableEq, Repr, Fintype

/-- The tables created by the migration. -/
inductive Table where
  | profiles
  | assessment_questions
  | user_assessments
  | learning_modules
  | user_module_progress
  | quizzes
  | user_quiz_attempts
  | achievements
  | user_achievements
deriving DecidableEq, Repr, Fintype

/-- The user-scoped tables: each row carries an owning user id (the id
column for profiles, user_id elsewhere). -/
def userScoped : Table → Bool
  | .profiles => true
  | .user_assessments => true
  | .user_module_progress => true
  | .user_quiz_attempts => true
  | .user_achievements => true
  | _ => false

/-- A row as seen by row-level security: its owning identity (none for
rows of the shared tables) and its remaining payload. -/
structure SqlRow where
  owner : Option String
  payload : String
deriving DecidableEq, Repr

/-- The migration's row-level-security policies: with RLS enabled every
command is denied unless a CREATE POLICY grants it; USING and WITH CHECK
conditions compare auth.uid() to the row's owning column. -/
def policyPermits : Table → SqlCmd → String → Option String → Bool
  | .profiles, .select, uid, owner => owner == some uid
  | .profiles, .update, uid, owner => owner == some uid
  | .profiles, .insert, uid, owner => owner == some uid
  | .assessment_questions, .select, _, _ => true
  | .user_assessments, .select, uid, owner => owner == some uid
  | .user_assessments, .insert, uid, owner => owner == some uid
  | .learning_modules, .select, _, _ => true
  | .user_module_progress, .select, uid, owner => owner == some uid
  | .user_module_progress, .insert, uid, owner => owner == some uid
  | .user_module_progress, .update, uid, owner => owner == some uid
  | .quizzes, .select, _, _ => true
  | .user_quiz_attempts, .select, uid, owner => owner == some uid
  | .user_quiz_attempts, .insert, uid, owner => owner == some uid
  | .achievements, .select, _, _ => true
  | .user_achievements, .select, uid, owner => owner == some uid
  | .user_achievements, .insert, uid, owner => owner == some uid
  | _, _, _, _ => false

/-- The rows of a table that a SELECT by the given identity returns. -/
def visibleTo (uid : String) (db : Table → List SqlRow) (t : Table) : List SqlRow :=
  (db t).filter (fun r => policyPermits t .select uid r.owner)

/-- The part of a table an identity's queries can depend on: its own rows
plus every row of the shared tables. -/
def ownedOrShared (uid : String) (t : Table) (r : SqlRow) : Bool :=
  r.owner == some uid || !userScoped t

/-- Invariant: every completed progress row sits at 100 percent. -/
def completedFull (s : DBState) : Prop :=
  ∀ r ∈ s.progress, r.is_completed = true → r.progress_percentage = 100

/-- Invariant: every progress percentage lies in the interval from 0 to 100. -/
def pctInRange (s : DBState) : Prop :=
  ∀ r ∈ s.progress, 0 ≤ r.progress_percentage ∧ r.progress_percentage ≤ 100

/-- Invariant: the (user_id, module_id) keys of user_module_progress are
pairwise distinct, the schema's UNIQUE(user_id, module_id) constraint. -/
def umpUnique (s : DBState) : Prop :=
  (umpKeys s.progress).Nodup

/-- Outcome of one INSERT under the unique constraint: either it succeeds
and the keys stay pairwise distinct, or it is rejected with error 23505. -/
def insertOutcomeOk (rows newRows : List ProgressRow) : Prop :=
  match insertProgressRows rows newRows with
  | .ok rows2 => (umpKeys rows2).Nodup
  | .error e => e = "23505"

/-- The four operations named by the completion invariant: module
completion, mark-complete, incremental progress update, and reset. -/
def progressWritingOp : Op → Bool
  | .complete _ _ _ => true
  | .reset _ _ => true
  | .updateProg _ _ _ => true
  | .markComplete _ _ => true
  | _ => false

/-- Whether an operation's updateProgress increment is non-negative
(operations without an increment qualify trivially). -/
def opIncrementsNonneg : Op → Bool
  | .updateProg _ _ inc => decide (0 ≤ inc)
  | _ => true

/-- Whether an operation's completed module carries a positive
points_reward (operations that award no module points qualify trivially). -/
def opRewardsPositive : Op → Bool
  | .complete _ m _ => decide (0 < m.points_reward)
  | _ => true

/-- Whether the profile row an operation's completion path reads exists in
the given state (other operations qualify trivially). -/
def opProfilePresent (op : Op) (s : DBState) : Bool :=
  match op with
  | .complete u _ _ => (findProfile s u).isSome
  | _ => true

instance (userId : String) (s : DBState) : Decidable (hasProfile userId s) := by
  unfold hasProfile
  infer_instance

instance (s : DBState) : Decidable (completedFull s) := by
  unfold completedFull
  infer_instance

instance (s : DBState) : Decidable (pctInRange s) := by
  unfold pctInRange
  infer_instance

instance (s : DBState) : Decidable (umpUnique s) := by
  unfold umpUnique
  infer_instance

/-- A sample profile row for concrete evaluations. -/
def sampleProfile : ProfileRow :=
  { id := "u1", full_name := "Asha", total_points := 0, streak_days := 0 }

/-- A sample progress row for concrete evaluations. -/
def sampleRow : ProgressRow :=
  { user_id := "u1", module_id := "m1", title := "Intro", description := "d"
    difficulty := "beginner", estimated_duration := 30, points_reward := 10
    detailed_content := "", level := 1, progress_percentage := 0
    is_completed := false, is_read_only := false }

/-- A second sample progress row with a fresh module key. -/
def sampleRow2 : ProgressRow :=
  { sampleRow with module_id := "m2", title := "Next" }

/-- A sample quiz question. -/
def sampleQuiz : QuizQuestion :=
  { id := "q1", question := "2+2?", options := ["3", "4"], correct_answer := "4" }

/-- A sample client module whose single quiz is sampleQuiz. -/
def sampleModule : Module :=
  { module_id := "m1", title := "Intro", description := "d", difficulty := "beginner"
    estimated_duration := 30, points_reward := 10, progress_percentage := 0
    is_completed := false, is_read_only := false, quizzes := [sampleQuiz] }

/-- A sample database state: one profile, one progress row, no badges. -/
def sampleState : DBState :=
  { profiles := [sampleProfile], progress := [sampleRow], badges := [] }

/-- A sample generated module returned by the generateModules API. -/
def sampleGenModule : GenModule :=
  { id := "m3", title := "Gen", description := "g", difficulty := "advanced"
    estimated_duration := 40, detailed_content := "c" }

/-- A sample database assignment for the row-level-security theorems. -/
def sampleDb1 : Table → List SqlRow := fun t =>
  if t = Table.user_module_progress then
    [{ owner := some "u1", payload := "mine" }, { owner := some "u2", payload := "theirs" }]
  else [{ owner := none, payload := "shared" }]

/-- A second sample database differing from sampleDb1 only in rows owned
by identities other than u1. -/
def sampleDb2 : Table → List SqlRow := fun t =>
  if t = Table.user_module_progress then
    [{ owner := some "u1", payload := "mine" }, { owner := some "u2", payload := "changed" },
     { owner := some "u9", payload := "extra" }]
  else [{ owner := none, payload := "shared" }]

/-! Helper lemmas about profile lookups and point updates. -/

theorem profileUpdate_id (p : ProfileRow) (uid : String) (v : ℤ) :
    (if p.id == uid then { p with total_points := v } else p).id = p.id := by
  split <;> rfl

theorem updateProfilePoints_find? (ps : List ProfileRow) (uid u : String) (v : ℤ) :
    (updateProfilePoints ps uid v).find? (fun p => p.id == u)
      = (ps.find? (fun p => p.id == u)).map
          (fun p => if p.id == uid then { p with total_points := v } else p) := by
  induction ps with
  | nil => rfl
  | cons p rest ih =>
    simp only [updateProfilePoints, List.map_cons] at ih ⊢
    by_cases h : p.id = u
    · rw [List.find?_cons_of_pos _ (show _ = true by rw [profileUpdate_id]; simp [h]),
        List.find?_cons_of_pos _ (show _ = true by simp [h])]
      rfl
    · rw [List.find?_cons_of_neg _ (show ¬ _ = true by rw [profileUpdate_id]; simp [h]),
        List.find?_cons_of_neg _ (show ¬ _ = true by simp [h]), ih]

theorem totalPoints_profiles_eq (s t : DBState) (u : String)
    (h : t.profiles = s.profiles) : totalPoints u t = totalPoints u s := by
  simp [totalPoints, findProfile, h]

theorem totalPoints_updateSelf (s t : DBState) (uid : String) (profile : ProfileRow) (d : ℤ)
    (hfp : findProfile s uid = some profile)
    (ht : t.profiles = updateProfilePoints s.profiles uid (profile.total_points + d)) :
    totalPoints uid t = totalPoints uid s + d := by
  have hfp2 : s.profiles.find? (fun p => p.id == uid) = some profile := hfp
  have hpred := List.find?_some hfp2
  simp only [totalPoints, findProfile, ht, updateProfilePoints_find?]
  simp only [beq_iff_eq] at hpred
  simp [hfp2, hpred]

theorem totalPoints_update_ge (s t : DBState) (u uid : String) (profile : ProfileRow) (d : ℤ)
    (hd : 0 ≤ d) (hfp : findProfile s uid = some profile)
    (ht : t.profiles = updateProfilePoints s.profiles uid (profile.total_points + d)) :
    totalPoints u s ≤ totalPoints u t := by
  by_cases h : u = uid
  · subst h
    rw [totalPoints_updateSelf s t u profile d hfp ht]
    omega
  · simp only [totalPoints, findProfile, ht, updateProfilePoints_find?]
    cases hq : s.profiles.find? (fun p => p.id == u) with
    | none => simp
    | some q =>
      have hqu := List.find?_some hq
      simp only [beq_iff_eq] at hqu
      simp [hqu, h]

theorem stepOp_generate_cases (uid : String) (cm : ℕ) (mods : List GenModule) (s : DBState) :
    stepOp (Op.generate uid cm mods) s = s
    ∨ ∃ rows, insertProgressRows s.progress (mods.map (initialProgressRow uid cm)) = Except.ok rows
        ∧ stepOp (Op.generate uid cm mods) s = { s with progress := rows } := by
  simp only [stepOp, generateModulesMutation]
  by_cases he : mods.isEmpty
  · left; simp [he]
  · cases hi : insertProgressRows s.progress (mods.map (initialProgressRow uid cm)) with
    | ok rows => right; exact ⟨rows, rfl, by simp [he, hi]⟩
    | error code => left; simp [he, hi]

theorem totalPoints_stepOp_mono (u : String) (op : Op) (s : DBState)
    (hop : opRewardsPositive op = true) :
    totalPoints u s ≤ totalPoints u (stepOp op s) := by
  cases op with
  | complete uid m score =>
    cases hfp : findProfile s uid with
    | none => simp [stepOp, completeModuleMutation, hfp]
    | some profile =>
      have hpos : (0:ℤ) ≤ m.points_reward := by
        simp only [opRewardsPositive, decide_eq_true_eq] at hop
        omega
      apply totalPoints_update_ge s _ u uid profile m.points_reward hpos hfp
      simp [stepOp, completeModuleMutation, hfp]
  | reset uid mid => exact le_of_eq (totalPoints_profiles_eq s _ u rfl).symm
  | submitQuiz uid m c quiz ans =>
    simp only [stepOp, submitQuizAnswer]
    split
    · exact le_refl _
    split
    · exact le_refl _
    split
    · exact le_refl _
    cases hfp : findProfile s uid with
    | none => simp
    | some profile =>
      apply totalPoints_update_ge s _ u uid profile 5 (by norm_num) hfp
      simp
  | updateProg uid mid inc => exact le_of_eq (totalPoints_profiles_eq s _ u rfl).symm
  | markComplete uid mid => exact le_of_eq (totalPoints_profiles_eq s _ u rfl).symm
  | generate uid cm mods =>
    rcases stepOp_generate_cases uid cm mods s with h | ⟨rows, _, h⟩ <;>
      exact le_of_eq (totalPoints_profiles_eq s _ u (by rw [h])).symm

theorem totalPoints_runOps_mono (u : String) (ops : List Op) (s : DBState)
    (h : ∀ op ∈ ops, opRewardsPositive op = true) :
    totalPoints u s ≤ totalPoints u (runOps ops s) := by
  induction ops generalizing s with
  | nil => exact le_refl _
  | cons op rest ih =>
    have h1 : runOps (op :: rest) s = runOps rest (stepOp op s) := rfl
    rw [h1]
    exact le_trans (totalPoints_stepOp_mono u op s (h op (List.mem_cons_self op rest)))
      (ih (stepOp op s) (fun op2 h2 => h op2 (List.mem_cons_of_mem op h2)))

theorem totalPoints_reset (u uid mid : String) (s : DBState) :
    totalPoints u (resetModuleForRetake uid mid s) = totalPoints u s :=
  totalPoints_profiles_eq s _ u rfl

theorem totalPoints_complete (uid : String) (m : Module) (score : ℚ) (s : DBState)
    (hp : hasProfile uid s) :
    totalPoints uid (completeModuleMutation uid m score s)
      = totalPoints uid s + m.points_reward := by
  rcases Option.isSome_iff_exists.1 hp with ⟨profile, hfp⟩
  apply totalPoints_updateSelf s _ uid profile m.points_reward hfp
  simp [completeModuleMutation, hfp]

theorem totalPoints_submitCorrect (uid : String) (m : Module) (c : ℕ) (quiz : QuizQuestion)
    (ans : String) (s : DBState) (hp : hasProfile uid s)
    (hro : m.is_read_only = false) (hcm : m.is_completed = false)
    (hne : ans ≠ "") (hans : ans = quiz.correct_answer) :
    totalPoints uid (submitQuizAnswer uid m c quiz ans s) = totalPoints uid s + 5 := by
  subst hans
  rcases Option.isSome_iff_exists.1 hp with ⟨profile, hfp⟩
  apply totalPoints_updateSelf s _ uid profile 5 hfp
  simp [submitQuizAnswer, hro, hcm, hne, hfp]

/-! Helper lemmas for the row invariants. -/

theorem completedFull_stepOp (op : Op) (s : DBState)
    (hop : progressWritingOp op = true) (h : completedFull s) :
    completedFull (stepOp op s) := by
  cases op with
  | complete uid m score =>
    cases hfp : findProfile s uid with
    | none => simpa [stepOp, completeModuleMutation, hfp] using h
    | some profile =>
      intro r2 hr2 hc2
      simp only [stepOp, completeModuleMutation, hfp] at hr2
      rcases List.mem_map.1 hr2 with ⟨r, hr, rfl⟩
      by_cases hm : umpMatch uid m.module_id r = true
      · simp [hm]
      · simp only [Bool.not_eq_true] at hm
        simp only [hm, Bool.false_eq_true, if_false] at hc2 ⊢
        exact h r hr hc2
  | reset uid mid =>
    intro r2 hr2 hc2
    simp only [stepOp, resetModuleForRetake] at hr2
    rcases List.mem_map.1 hr2 with ⟨r, hr, rfl⟩
    by_cases hm : umpMatch uid mid r = true
    · simp [hm] at hc2
    · simp only [Bool.not_eq_true] at hm
      simp only [hm, Bool.false_eq_true, if_false] at hc2 ⊢
      exact h r hr hc2
  | submitQuiz uid m c quiz ans => simp [progressWritingOp] at hop
  | updateProg uid mid inc =>
    intro r2 hr2 hc2
    simp only [stepOp, updateProgress, upsertProgress] at hr2
    split at hr2
    · rcases List.mem_map.1 hr2 with ⟨r, hr, rfl⟩
      by_cases hm : umpMatch uid mid r = true
      · simp only [hm, if_true] at hc2 ⊢
        simp only [beq_iff_eq] at hc2
        simp [hc2]
      · simp only [Bool.not_eq_true] at hm
        simp only [hm, Bool.false_eq_true, if_false] at hc2 ⊢
        exact h r hr hc2
    · rcases List.mem_append.1 hr2 with hr | hr
      · exact h r2 hr hc2
      · simp only [List.mem_singleton] at hr
        subst hr
        simp only [newProgressRow] at hc2 ⊢
        simp only [beq_iff_eq] at hc2
        simp [hc2]
  | markComplete uid mid =>
    intro r2 hr2 hc2
    simp only [stepOp, handleMarkComplete, upsertProgress] at hr2
    split at hr2
    · rcases List.mem_map.1 hr2 with ⟨r, hr, rfl⟩
      by_cases hm : umpMatch uid mid r = true
      · simp [hm]
      · simp only [Bool.not_eq_true] at hm
        simp only [hm, Bool.false_eq_true, if_false] at hc2 ⊢
        exact h r hr hc2
    · rcases List.mem_append.1 hr2 with hr | hr
      · exact h r2 hr hc2
      · simp only [List.mem_singleton] at hr
        subst hr
        simp [newProgressRow]
  | generate uid cm mods => simp [progressWritingOp] at hop

theorem progressAfterQuiz_range (c q : ℕ) :
    0 ≤ progressAfterQuiz c q ∧ progressAfterQuiz c q ≤ 100 := by
  unfold progressAfterQuiz
  split
  · omega
  · constructor
    · positivity
    · exact_mod_cast Nat.min_le_right (100 * c / q) 100

theorem pctInRange_stepOp (op : Op) (s : DBState)
    (hop : opIncrementsNonneg op = true) (h : pctInRange s) :
    pctInRange (stepOp op s) := by
  cases op with
  | complete uid m score =>
    cases hfp : findProfile s uid with
    | none => simpa [stepOp, completeModuleMutation, hfp] using h
    | some profile =>
      intro r2 hr2
      simp only [stepOp, completeModuleMutation, hfp] at hr2
      rcases List.mem_map.1 hr2 with ⟨r, hr, rfl⟩
      by_cases hm : umpMatch uid m.module_id r = true
      · simp [hm]
      · simp only [Bool.not_eq_true] at hm
        simp only [hm, Bool.false_eq_true, if_false]
        exact h r hr
  | reset uid mid =>
    intro r2 hr2
    simp only [stepOp, resetModuleForRetake] at hr2
    rcases List.mem_map.1 hr2 with ⟨r, hr, rfl⟩
    by_cases hm : umpMatch uid mid r = true
    · simp [hm]
    · simp only [Bool.not_eq_true] at hm
      simp only [hm, Bool.false_eq_true, if_false]
      exact h r hr
  | submitQuiz uid m c quiz ans =>
    simp only [stepOp, submitQuizAnswer]
    split
    · exact h
    split
    · exact h
    split
    · exact h
    cases hfp : findProfile s uid with
    | none => exact h
    | some profile =>
      intro r2 hr2
      simp only at hr2
      rcases List.mem_map.1 hr2 with ⟨r, hr, rfl⟩
      by_cases hm : umpMatch uid m.module_id r = true
      · simpa [hm] using progressAfterQuiz_range (c + 1) m.quizzes.length
      · simp only [Bool.not_eq_true] at hm
        simp only [hm, Bool.false_eq_true, if_false]
        exact h r hr
  | updateProg uid mid inc =>
    have hinc : (0:ℤ) ≤ inc := by
      simp only [opIncrementsNonneg, decide_eq_true_eq] at hop
      exact hop
    have hprev : 0 ≤ ((s.progress.find? (umpMatch uid mid)).map
        (fun r => r.progress_percentage)).getD 0 := by
      cases hf : s.progress.find? (umpMatch uid mid) with
      | none => simp
      | some r => simpa using (h r (List.mem_of_find?_eq_some hf)).1
    intro r2 hr2
    simp only [stepOp, updateProgress, upsertProgress] at hr2
    split at hr2
    · rcases List.mem_map.1 hr2 with ⟨r, hr, rfl⟩
      by_cases hm : umpMatch uid mid r = true
      · simp only [hm, if_true]
        exact ⟨le_min (by omega) (by norm_num), min_le_right _ _⟩
      · simp only [Bool.not_eq_true] at hm
        simp only [hm, Bool.false_eq_true, if_false]
        exact h r hr
    · rcases List.mem_append.1 hr2 with hr | hr
      · exact h r2 hr
      · simp only [List.mem_singleton] at hr
        subst hr
        simp only [newProgressRow]
        exact ⟨le_min (by omega) (by norm_num), min_le_right _ _⟩
  | markComplete uid mid =>
    intro r2 hr2
    simp only [stepOp, handleMarkComplete, upsertProgress] at hr2
    split at hr2
    · rcases List.mem_map.1 hr2 with ⟨r, hr, rfl⟩
      by_cases hm : umpMatch uid mid r = true
      · simp [hm]
      · simp only [Bool.not_eq_true] at hm
        simp only [hm, Bool.false_eq_true, if_false]
        exact h r hr
    · rcases List.mem_append.1 hr2 with hr | hr
      · exact h r2 hr
      · simp only [List.mem_singleton] at hr
        subst hr
        simp [newProgressRow]
  | generate uid cm mods =>
    rcases stepOp_generate_cases uid cm mods s with hg | ⟨rows, hins, hg⟩
    · rw [hg]; exact h
    · rw [hg]
      intro r2 hr2
      simp only at hr2
      simp only [insertProgressRows] at hins
      split at hins
      · cases hins
        rcases List.mem_append.1 hr2 with hr | hr
        · exact h r2 hr
        · rcases List.mem_map.1 hr with ⟨gm, _, rfl⟩
          simp [initialProgressRow]
      · cases hins

/-! Helper lemmas for the unique-key invariant. -/

theorem umpKeys_map_keep (rows : List ProgressRow) (f : ProgressRow → ProgressRow)
    (hf : ∀ r, (f r).user_id = r.user_id ∧ (f r).module_id = r.module_id) :
    umpKeys (rows.map f) = umpKeys rows := by
  unfold umpKeys
  rw [List.map_map]
  exact List.map_congr_left (fun r _ => by simp [(hf r).1, (hf r).2])

theorem umpKeys_append (l1 l2 : List ProgressRow) :
    umpKeys (l1 ++ l2) = umpKeys l1 ++ umpKeys l2 := by
  simp [umpKeys]

theorem notMem_umpKeys_of_not_any (rows : List ProgressRow) (uid mid : String)
    (hn : ¬ rows.any (umpMatch uid mid) = true) : (uid, mid) ∉ umpKeys rows := by
  intro hmem
  rcases List.mem_map.1 hmem with ⟨r, hr, hkey⟩
  apply hn
  rw [List.any_eq_true]
  refine ⟨r, hr, ?_⟩
  simp only [Prod.mk.injEq] at hkey
  simp [umpMatch, hkey.1, hkey.2]

theorem umpKeys_upsert_nodup (uid mid : String) (pct : ℤ) (completed : Bool)
    (rows : List ProgressRow) (h : (umpKeys rows).Nodup) :
    (umpKeys (upsertProgress uid mid pct completed rows)).Nodup := by
  unfold upsertProgress
  split
  · rw [umpKeys_map_keep]
    · exact h
    · intro r
      constructor <;> (split <;> rfl)
  · rw [umpKeys_append]
    rw [List.nodup_append]
    refine ⟨h, List.nodup_singleton _, ?_⟩
    intro k hk
    simp only [umpKeys, newProgressRow, List.map_cons, List.map_nil, List.mem_singleton]
    intro hke
    subst hke
    exact notMem_umpKeys_of_not_any rows uid mid (by assumption) hk

theorem insertProgressRows_ok_nodup (rows newRows rows2 : List ProgressRow)
    (h : (umpKeys rows).Nodup)
    (hok : insertProgressRows rows newRows = Except.ok rows2) :
    (umpKeys rows2).Nodup := by
  unfold insertProgressRows at hok
  split at hok
  · cases hok
    rename_i hcond
    rw [umpKeys_append, List.nodup_append]
    exact ⟨h, hcond.1, fun k hk hk2 => hcond.2 k hk2 hk⟩
  · cases hok

theorem umpUnique_stepOp (op : Op) (s : DBState) (h : umpUnique s) :
    umpUnique (stepOp op s) := by
  cases op with
  | complete uid m score =>
    cases hfp : findProfile s uid with
    | none => simpa [stepOp, completeModuleMutation, hfp] using h
    | some profile =>
      unfold umpUnique
      simp only [stepOp, completeModuleMutation, hfp]
      rw [umpKeys_map_keep]
      · exact h
      · intro r
        constructor <;> (split <;> rfl)
  | reset uid mid =>
    unfold umpUnique
    simp only [stepOp, resetModuleForRetake]
    rw [umpKeys_map_keep]
    · exact h
    · intro r
      constructor <;> (split <;> rfl)
  | submitQuiz uid m c quiz ans =>
    unfold umpUnique
    simp only [stepOp, submitQuizAnswer]
    split
    · exact h
    split
    · exact h
    split
    · exact h
    cases hfp : findProfile s uid with
    | none => exact h
    | some profile =>
      simp only
      rw [umpKeys_map_keep]
      · exact h
      · intro r
        constructor <;> (split <;> rfl)
  | updateProg uid mid inc =>
    exact umpKeys_upsert_nodup uid mid _ _ s.progress h
  | markComplete uid mid =>
    exact umpKeys_upsert_nodup uid mid 100 true s.progress h
  | generate uid cm mods =>
    rcases stepOp_generate_cases uid cm mods s with hg | ⟨rows, hins, hg⟩
    · rw [hg]; exact h
    · rw [hg]
      exact insertProgressRows_ok_nodup s.progress _ rows h hins

/-! Helper lemmas for badge counting. -/

theorem findProfile_updateProfilePoints (s : DBState) (t : DBState) (u uid : String) (v : ℤ)
    (ht : t.profiles = updateProfilePoints s.profiles uid v) :
    (findProfile t u).isSome = (findProfile s u).isSome := by
  simp [findProfile, ht, updateProfilePoints_find?]

theorem findProfile_isSome_stepOp (u : String) (op : Op) (s : DBState) :
    (findProfile (stepOp op s) u).isSome = (findProfile s u).isSome := by
  cases op with
  | complete uid m score =>
    cases hfp : findProfile s uid with
    | none => simp [stepOp, completeModuleMutation, hfp]
    | some profile =>
      apply findProfile_updateProfilePoints s _ u uid (profile.total_points + m.points_reward)
      simp [stepOp, completeModuleMutation, hfp]
  | reset uid mid => rfl
  | submitQuiz uid m c quiz ans =>
    simp only [stepOp, submitQuizAnswer]
    split
    · rfl
    split
    · rfl
    split
    · rfl
    cases hfp : findProfile s uid with
    | none => rfl
    | some profile =>
      apply findProfile_updateProfilePoints s _ u uid (profile.total_points + 5)
      simp
  | updateProg uid mid inc => rfl
  | markComplete uid mid => rfl
  | generate uid cm mods =>
    rcases stepOp_generate_cases uid cm mods s with hg | ⟨rows, _, hg⟩ <;>
      rw [hg]
    rfl

theorem opProfilePresent_stepOp (op op2 : Op) (s : DBState) :
    opProfilePresent op (stepOp op2 s) = opProfilePresent op s := by
  cases op <;> simp [opProfilePresent, findProfile_isSome_stepOp]

theorem badgeCount_stepOp (uid mid : String) (op : Op) (s : DBState)
    (hp : opProfilePresent op s = true) :
    badgeCount uid mid (stepOp op s)
      = badgeCount uid mid s + (if passingComplete uid mid op then 1 else 0) := by
  cases op with
  | complete u m score =>
    have hsome : (findProfile s u).isSome = true := hp
    rcases Option.isSome_iff_exists.1 hsome with ⟨profile, hfp⟩
    simp only [stepOp, completeModuleMutation, hfp, badgeCount, passingComplete]
    by_cases hsc : (85:ℚ) ≤ score
    · simp only [hsc, if_true, List.filter_append, List.length_append]
      by_cases hu : u = uid
      · by_cases hm : m.module_id = mid
        · simp [mkBadge, hu, hm]
        · simp [mkBadge, hu, hm]
      · simp [mkBadge, hu]
    · simp [hsc]
  | reset u mid2 => simp [stepOp, resetModuleForRetake, badgeCount, passingComplete]
  | submitQuiz u m c quiz ans =>
    simp only [stepOp, submitQuizAnswer, passingComplete, if_false]
    split
    · simp
    split
    · simp
    split
    · simp
    cases hfp : findProfile s u with
    | none => simp
    | some profile => simp [badgeCount]
  | updateProg u mid2 inc => simp [stepOp, updateProgress, badgeCount, passingComplete]
  | markComplete u mid2 => simp [stepOp, handleMarkComplete, badgeCount, passingComplete]
  | generate u cm mods =>
    rcases stepOp_generate_cases u cm mods s with hg | ⟨rows, _, hg⟩ <;>
      simp [hg, badgeCount, passingComplete]

theorem badgeCount_runOps (uid mid : String) (ops : List Op) (s : DBState)
    (hp : ∀ op ∈ ops, opProfilePresent op s = true) :
    badgeCount uid mid (runOps ops s)
      = badgeCount uid mid s + ops.countP (passingComplete uid mid) := by
  induction ops generalizing s with
  | nil => simp [runOps]
  | cons op rest ih =>
    have h1 : runOps (op :: rest) s = runOps rest (stepOp op s) := rfl
    rw [h1, ih (stepOp op s) (fun op2 h2 => by
      rw [opProfilePresent_stepOp]
      exact hp op2 (List.mem_cons_of_mem op h2))]
    rw [badgeCount_stepOp uid mid op s (hp op (List.mem_cons_self op rest))]
    rw [List.countP_cons]
    omega

/-! Helper lemmas for the modules-query deduplication. -/

theorem dedupInsert_map_mid (acc : List ProgressRow) (c : ProgressRow) :
    (dedupInsert acc c).map (fun r => r.module_id)
      = if c.module_id ∈ acc.map (fun r => r.module_id)
        then acc.map (fun r => r.module_id)
        else acc.map (fun r => r.module_id) ++ [c.module_id] := by
  induction acc with
  | nil => simp [dedupInsert]
  | cons e rest ih =>
    by_cases h : e.module_id = c.module_id
    · have hmem : c.module_id ∈ (e :: rest).map (fun r => r.module_id) := by simp [h]
      rw [if_pos hmem]
      simp only [dedupInsert, List.map_cons]
      rw [if_pos (show (e.module_id == c.module_id) = true by simp [h])]
      split
      · simp [h]
      · split
        · simp [h]
        · simp
    · have hce : c.module_id ≠ e.module_id := fun hh => h hh.symm
      simp only [dedupInsert, List.map_cons]
      rw [if_neg (show ¬ (e.module_id == c.module_id) = true by simp [h])]
      simp only [List.map_cons, ih, List.mem_cons, hce, false_or]
      by_cases hc : c.module_id ∈ rest.map (fun r => r.module_id)
      · simp [hc]
      · simp [hc]

theorem dedupInsert_subset (acc : List ProgressRow) (c x : ProgressRow)
    (hx : x ∈ dedupInsert acc c) : x ∈ acc ∨ x = c := by
  induction acc with
  | nil => simpa [dedupInsert] using hx
  | cons e rest ih =>
    simp only [dedupInsert] at hx
    split at hx
    · split at hx
      · rcases List.mem_cons.1 hx with h | h
        · right; exact h
        · left; exact List.mem_cons_of_mem e h
      · split at hx
        · rcases List.mem_cons.1 hx with h | h
          · right; exact h
          · left; exact List.mem_cons_of_mem e h
        · rcases List.mem_cons.1 hx with h | h
          · left; simp [h]
          · left; exact List.mem_cons_of_mem e h
    · rcases List.mem_cons.1 hx with h | h
      · left; simp [h]
      · rcases ih h with h2 | h2
        · left; exact List.mem_cons_of_mem e h2
        · right; exact h2

theorem dedupInsert_of_notMem (acc : List ProgressRow) (c : ProgressRow)
    (h : c.module_id ∉ acc.map (fun r => r.module_id)) :
    dedupInsert acc c = acc ++ [c] := by
  induction acc with
  | nil => rfl
  | cons e rest ih =>
    simp only [List.map_cons, List.mem_cons] at h
    push_neg at h
    have hb : ¬ (e.module_id == c.module_id) = true := by
      simp only [beq_iff_eq]
      exact fun hh => h.1 hh.symm
    simp only [dedupInsert]
    rw [if_neg hb, ih h.2]
    rfl

theorem dedupInsert_nodup (acc : List ProgressRow) (c : ProgressRow)
    (h : (acc.map (fun r => r.module_id)).Nodup) :
    ((dedupInsert acc c).map (fun r => r.module_id)).Nodup := by
  rw [dedupInsert_map_mid]
  split
  · exact h
  · rename_i hc
    simp [List.nodup_append, h, hc]

theorem foldl_dedupInsert_nodup (data : List ProgressRow) :
    ∀ acc : List ProgressRow, (acc.map (fun r => r.module_id)).Nodup →
      ((data.foldl dedupInsert acc).map (fun r => r.module_id)).Nodup := by
  induction data with
  | nil => intro acc h; simpa using h
  | cons c rest ih =>
    intro acc h
    exact ih (dedupInsert acc c) (dedupInsert_nodup acc c h)

theorem foldl_dedupInsert_subset (data : List ProgressRow) :
    ∀ (acc : List ProgressRow) (x : ProgressRow),
      x ∈ data.foldl dedupInsert acc → x ∈ acc ∨ x ∈ data := by
  induction data with
  | nil =>
    intro acc x hx
    left; simpa using hx
  | cons c rest ih =>
    intro acc x hx
    rcases ih (dedupInsert acc c) x hx with h | h
    · rcases dedupInsert_subset acc c x h with h2 | h2
      · left; exact h2
      · right; simp [h2]
    · right; exact List.mem_cons_of_mem c h

theorem foldl_dedupInsert_of_nodup (data : List ProgressRow) :
    ∀ acc : List ProgressRow,
      ((acc.map (fun r => r.module_id)) ++ (data.map (fun r => r.module_id))).Nodup →
      data.foldl dedupInsert acc = acc ++ data := by
  induction data with
  | nil => intro acc _; simp
  | cons c rest ih =>
    intro acc h
    have hc : c.module_id ∉ acc.map (fun r => r.module_id) := by
      intro hmem
      exact (List.nodup_append.1 h).2.2 hmem (List.mem_cons_self _ _)
    rw [List.foldl_cons, dedupInsert_of_notMem acc c hc, ih]
    · simp
    · rw [List.map_append, List.append_assoc]
      simpa using h

/-! Helper lemmas for row-level security and the remaining invariants. -/

theorem policyPermits_select_eq_ownedOrShared (uid : String) (t : Table) (r : SqlRow) :
    policyPermits t SqlCmd.select uid r.owner = ownedOrShared uid t r := by
  cases t <;> simp [policyPermits, ownedOrShared, userScoped]

theorem visibleTo_eq_of_agree (uid : String) (db1 db2 : Table → List SqlRow) (t : Table)
    (hagree : ∀ t2, (db1 t2).filter (ownedOrShared uid t2)
        = (db2 t2).filter (ownedOrShared uid t2)) :
    visibleTo uid db1 t = visibleTo uid db2 t := by
  unfold visibleTo
  have h1 : ∀ db : Table → List SqlRow,
      (db t).filter (fun r => policyPermits t SqlCmd.select uid r.owner)
        = (db t).filter (ownedOrShared uid t) := by
    intro db
    exact List.filter_congr (fun r _ => policyPermits_select_eq_ownedOrShared uid t r)
  rw [h1, h1, hagree]

theorem completedFull_runOps (ops : List Op) (s : DBState)
    (hops : ∀ op ∈ ops, progressWritingOp op = true) (h0 : completedFull s) :
    completedFull (runOps ops s) := by
  induction ops generalizing s with
  | nil => exact h0
  | cons op rest ih =>
    exact ih (stepOp op s)
      (fun op2 h2 => hops op2 (List.mem_cons_of_mem op h2))
      (completedFull_stepOp op s (hops op (List.mem_cons_self op rest)) h0)

theorem pctInRange_runOps (ops : List Op) (s : DBState)
    (hops : ∀ op ∈ ops, opIncrementsNonneg op = true) (h0 : pctInRange s) :
    pctInRange (runOps ops s) := by
  induction ops generalizing s with
  | nil => exact h0
  | cons op rest ih =>
    exact ih (stepOp op s)
      (fun op2 h2 => hops op2 (List.mem_cons_of_mem op h2))
      (pctInRange_stepOp op s (hops op (List.mem_cons_self op rest)) h0)

theorem umpUnique_runOps (ops : List Op) (s : DBState) (h : umpUnique s) :
    umpUnique (runOps ops s) := by
  induction ops generalizing s with
  | nil => exact h
  | cons op rest ih => exact ih (stepOp op s) (umpUnique_stepOp op s h)

theorem insertOutcomeOk_of_nodup (rows newRows : List ProgressRow)
    (hrows : (umpKeys rows).Nodup) : insertOutcomeOk rows newRows := by
  unfold insertOutcomeOk
  cases hi : insertProgressRows rows newRows with
  | ok rows2 => exact insertProgressRows_ok_nodup rows newRows rows2 hrows hi
  | error e =>
    unfold insertProgressRows at hi
    split at hi
    · cases hi
    · injection hi with h2
      exact h2.symm

theorem max5_dvd (x : ℤ) : (5:ℤ) ∣ max 5 (x * 5) := by
  rcases max_cases (5:ℤ) (x * 5) with ⟨h1, _⟩ | ⟨h1, _⟩ <;> rw [h1] <;>
    first
      | exact dvd_refl 5
      | exact dvd_mul_left 5 x

/-! Claim theorems. -/

/-- C1 counterexample: starting from a state with one profile, one progress
row and no badge rows, the operation sequence complete (score 100), reset
via resetModuleForRetake, complete again (score 100) leaves two badge rows
for the same (user, module) combination: awardBadgeMutation inserts into
user_badges without any uniqueness guard, so the claimed at-most-one-badge
invariant fails. -/
theorem badge_at_most_once_refuted :
    badgeCount "u1" "m1" sampleState = 0
    ∧ badgeCount "u1" "m1" (runOps [Op.complete "u1" sampleModule 100,
        Op.reset "u1" "m1", Op.complete "u1" sampleModule 100] sampleState) = 2 := by
  constructor <;> decide

/-- C1 (amended): across every operation sequence whose completions run
with an existing profile row, the number of badge rows for a (user,
module) combination grows by exactly the number of completeModuleMutation
calls for that module by that user with score at least 85; hence at most
one badge row is inserted exactly when the sequence contains at most one
such passing completion, and a complete-reset-recomplete sequence with
passing scores inserts one badge row per passing completion. -/
theorem badge_insert_count (uid mid : String) (ops : List Op) (s : DBState)
    (hp : ∀ op ∈ ops, opProfilePresent op s = true) :
    badgeCount uid mid (runOps ops s)
      = badgeCount uid mid s + ops.countP (passingComplete uid mid) :=
  badgeCount_runOps uid mid ops s hp

/-- C1 witness: the badge count law applied to the concrete
complete-reset-complete run from the sample state. -/
theorem badge_insert_count_witness :
    badgeCount "u1" "m1" (runOps [Op.complete "u1" sampleModule 100,
        Op.reset "u1" "m1", Op.complete "u1" sampleModule 100] sampleState)
      = badgeCount "u1" "m1" sampleState
        + List.countP (passingComplete "u1" "m1")
            [Op.complete "u1" sampleModule 100, Op.reset "u1" "m1",
             Op.complete "u1" sampleModule 100] :=
  badge_insert_count "u1" "m1"
    [Op.complete "u1" sampleModule 100, Op.reset "u1" "m1",
     Op.complete "u1" sampleModule 100] sampleState (by decide)

/-- C2: when a module is completed with the score computed by
calculateQuizScore, a badge row is appended exactly when the score is at
least 85, the module's points_reward is added to the profile's
total_points regardless of the score, and the score equals 100 times the
number of correctly answered quiz questions divided by the number of quiz
questions (0 when the module has no quizzes). -/
theorem completeModule_badge_iff_points (userId : String) (m : Module)
    (answers : List (String × String)) (s : DBState) (hp : hasProfile userId s) :
    (completeModuleMutation userId m (calculateQuizScore m.quizzes answers) s).badges
        = s.badges ++ (if 85 ≤ calculateQuizScore m.quizzes answers
            then [mkBadge userId m] else [])
    ∧ badgeCount userId m.module_id
          (completeModuleMutation userId m (calculateQuizScore m.quizzes answers) s)
        = badgeCount userId m.module_id s
          + (if 85 ≤ calculateQuizScore m.quizzes answers then 1 else 0)
    ∧ totalPoints userId
          (completeModuleMutation userId m (calculateQuizScore m.quizzes answers) s)
        = totalPoints userId s + m.points_reward
    ∧ calculateQuizScore m.quizzes answers
        = (if m.quizzes.length = 0 then 0
           else 100 * (countCorrect m.quizzes answers : ℚ) / (m.quizzes.length : ℚ)) := by
  rcases Option.isSome_iff_exists.1 hp with ⟨profile, hfp⟩
  refine ⟨?_, ?_, totalPoints_complete userId m _ s hp, ?_⟩
  · simp only [completeModuleMutation, hfp]
    split
    · rfl
    · simp
  · simp only [completeModuleMutation, hfp, badgeCount]
    split
    · simp [mkBadge]
    · simp
  · unfold calculateQuizScore
    split
    · rfl
    · ring

/-- C2 witness: completion of the sample module with its single quiz
answered correctly, from the sample state. -/
theorem completeModule_badge_iff_points_witness :
    (completeModuleMutation "u1" sampleModule
        (calculateQuizScore sampleModule.quizzes [("q1", "4")]) sampleState).badges
      = sampleState.badges
        ++ (if 85 ≤ calculateQuizScore sampleModule.quizzes [("q1", "4")]
            then [mkBadge "u1" sampleModule] else [])
    ∧ totalPoints "u1" (completeModuleMutation "u1" sampleModule
          (calculateQuizScore sampleModule.quizzes [("q1", "4")]) sampleState)
      = totalPoints "u1" sampleState + sampleModule.points_reward :=
  ⟨(completeModule_badge_iff_points "u1" sampleModule [("q1", "4")] sampleState (by decide)).1,
   (completeModule_badge_iff_points "u1" sampleModule [("q1", "4")] sampleState
      (by decide)).2.2.1⟩

/-- C3: total_points never decreases: over any operation sequence whose
completions carry a positive points_reward, a profile's total_points is
monotonically non-decreasing; resetModuleForRetake leaves total_points
unchanged, a completion adds exactly the module's points_reward, and a
correct quiz answer adds exactly 5 points. -/
theorem total_points_monotone (u uid mid : String) (m : Module) (score : ℚ) (c : ℕ)
    (quiz : QuizQuestion) (ans : String) (ops : List Op) (s : DBState)
    (hpos : ∀ op ∈ ops, opRewardsPositive op = true)
    (hp : hasProfile uid s)
    (hro : m.is_read_only = false) (hcm : m.is_completed = false)
    (hne : ans ≠ "") (hans : ans = quiz.correct_answer) :
    totalPoints u s ≤ totalPoints u (runOps ops s)
    ∧ totalPoints u (resetModuleForRetake uid mid s) = totalPoints u s
    ∧ totalPoints uid (completeModuleMutation uid m score s)
        = totalPoints uid s + m.points_reward
    ∧ totalPoints uid (submitQuizAnswer uid m c quiz ans s) = totalPoints uid s + 5 :=
  ⟨totalPoints_runOps_mono u ops s hpos, totalPoints_reset u uid mid s,
   totalPoints_complete uid m score s hp,
   totalPoints_submitCorrect uid m c quiz ans s hp hro hcm hne hans⟩

/-- C3 witness: the monotonicity and the per-operation point deltas on a
concrete complete-reset-answer run from the sample state. -/
theorem total_points_monotone_witness :
    totalPoints "u1" sampleState
      ≤ totalPoints "u1" (runOps [Op.complete "u1" sampleModule 100,
          Op.reset "u1" "m1", Op.submitQuiz "u1" sampleModule 0 sampleQuiz "4"] sampleState)
    ∧ totalPoints "u1" (resetModuleForRetake "u1" "m1" sampleState)
        = totalPoints "u1" sampleState :=
  ⟨(total_points_monotone "u1" "u1" "m1" sampleModule 100 0 sampleQuiz "4"
      [Op.complete "u1" sampleModule 100, Op.reset "u1" "m1",
       Op.submitQuiz "u1" sampleModule 0 sampleQuiz "4"] sampleState
      (by decide) (by decide) (by decide) (by decide) (by decide) (by decide)).1,
   (total_points_monotone "u1" "u1" "m1" sampleModule 100 0 sampleQuiz "4"
      [Op.complete "u1" sampleModule 100, Op.reset "u1" "m1",
       Op.submitQuiz "u1" sampleModule 0 sampleQuiz "4"] sampleState
      (by decide) (by decide) (by decide) (by decide) (by decide) (by decide)).2.1⟩

/-- C4: from any state in which every completed progress row sits at 100
percent, any sequence of the progress-writing operations
(completeModuleMutation, handleMarkComplete, updateProgress,
resetModuleForRetake) leads only to states with the same property. -/
theorem completed_rows_full (ops : List Op) (s : DBState)
    (h0 : completedFull s) (hops : ∀ op ∈ ops, progressWritingOp op = true) :
    completedFull (runOps ops s) :=
  completedFull_runOps ops s hops h0

/-- C4 witness: the invariant holds after a concrete sequence of the four
progress-writing operations from the sample state. -/
theorem completed_rows_full_witness :
    completedFull (runOps [Op.complete "u1" sampleModule 100, Op.reset "u1" "m1",
        Op.updateProg "u1" "m1" 40, Op.markComplete "u1" "m1"] sampleState) :=
  completed_rows_full [Op.complete "u1" sampleModule 100, Op.reset "u1" "m1",
      Op.updateProg "u1" "m1" 40, Op.markComplete "u1" "m1"] sampleState
    (by decide) (by decide)

/-- C5: the user_module_progress table keeps at most one row per
(user_id, module_id): every reachable state preserves pairwise-distinct
keys, and a plain INSERT under the UNIQUE constraint either succeeds with
pairwise-distinct keys or is rejected with duplicate-key error 23505. -/
theorem ump_key_unique (ops : List Op) (s : DBState) (rows newRows : List ProgressRow)
    (h : umpUnique s) (hrows : (umpKeys rows).Nodup) :
    umpUnique (runOps ops s) ∧ insertOutcomeOk rows newRows :=
  ⟨umpUnique_runOps ops s h, insertOutcomeOk_of_nodup rows newRows hrows⟩

/-- C5 witness: key uniqueness after a concrete run including a module
generation and two upserts, plus the insert dichotomy on a duplicate
batch. -/
theorem ump_key_unique_witness :
    umpUnique (runOps [Op.generate "u1" 0 [sampleGenModule],
        Op.updateProg "u1" "m1" 40, Op.markComplete "u1" "m9"] sampleState)
    ∧ insertOutcomeOk [sampleRow] [sampleRow] :=
  ump_key_unique [Op.generate "u1" 0 [sampleGenModule],
      Op.updateProg "u1" "m1" 40, Op.markComplete "u1" "m9"] sampleState
    [sampleRow] [sampleRow] (by decide) (by decide)

/-- C6: the row-level-security policies permit an identity to touch a
user-scoped row only when the row's owning column equals that identity,
permit nothing but SELECT on the shared tables, and hence an identity's
SELECT results are unchanged when rows owned by other identities change. -/
theorem rls_scoping (uid : String) (t tu ts : Table) (cu cs : SqlCmd)
    (ownerU ownerS : Option String) (db1 db2 : Table → List SqlRow)
    (hu : userScoped tu = true) (hpu : policyPermits tu cu uid ownerU = true)
    (hs : userScoped ts = false) (hps : policyPermits ts cs uid ownerS = true)
    (hagree : ∀ t2, (db1 t2).filter (ownedOrShared uid t2)
        = (db2 t2).filter (ownedOrShared uid t2)) :
    ownerU = some uid ∧ cs = SqlCmd.select
      ∧ visibleTo uid db1 t = visibleTo uid db2 t := by
  refine ⟨?_, ?_, visibleTo_eq_of_agree uid db1 db2 t hagree⟩
  · cases tu <;> cases cu <;> simp_all [policyPermits, userScoped]
  · cases ts <;> cases cs <;> simp_all [policyPermits, userScoped]

/-- C6 witness: the scoping facts at a concrete permitted UPDATE on
profiles, a permitted SELECT on quizzes, and two databases differing only
in rows owned by other identities. -/
theorem rls_scoping_witness :
    (some "u1" : Option String) = some "u1" ∧ SqlCmd.select = SqlCmd.select
    ∧ visibleTo "u1" sampleDb1 Table.user_module_progress
        = visibleTo "u1" sampleDb2 Table.user_module_progress :=
  rls_scoping "u1" Table.user_module_progress Table.profiles Table.quizzes
    SqlCmd.update SqlCmd.select (some "u1") none sampleDb1 sampleDb2
    (by decide) (by decide) (by decide) (by decide) (by decide)

/-- C7: from any state whose progress percentages lie in the closed
interval from 0 to 100, any operation sequence whose updateProgress
increments are non-negative leads only to states whose progress
percentages lie in that interval. -/
theorem progress_percentage_range (ops : List Op) (s : DBState)
    (h0 : pctInRange s) (hinc : ∀ op ∈ ops, opIncrementsNonneg op = true) :
    pctInRange (runOps ops s) :=
  pctInRange_runOps ops s hinc h0

/-- C7 witness: the range invariant after a concrete quiz submission,
progress-increment upsert, completion and reset from the sample state. -/
theorem progress_percentage_range_witness :
    pctInRange (runOps [Op.submitQuiz "u1" sampleModule 0 sampleQuiz "4",
        Op.updateProg "u1" "m1" 40, Op.complete "u1" sampleModule 100,
        Op.reset "u1" "m1"] sampleState) :=
  progress_percentage_range [Op.submitQuiz "u1" sampleModule 0 sampleQuiz "4",
      Op.updateProg "u1" "m1" 40, Op.complete "u1" sampleModule 100,
      Op.reset "u1" "m1"] sampleState (by decide) (by decide)

/-- C8: resetModuleForRetake leaves profiles (hence total_points) and
badge rows untouched, preserves the number of progress rows, keeps every
column of every progress row except progress_percentage, is_completed and
is_read_only, leaves rows that do not match the selected (user, module)
entirely unchanged, and sets the matching row's three written columns to
0, false and false. -/
theorem reset_frame (uid mid : String) (s : DBState) (i : ℕ)
    (h1 : i < s.progress.length)
    (h2 : i < (resetModuleForRetake uid mid s).progress.length) :
    (resetModuleForRetake uid mid s).profiles = s.profiles
    ∧ (resetModuleForRetake uid mid s).badges = s.badges
    ∧ (resetModuleForRetake uid mid s).progress.length = s.progress.length
    ∧ ((resetModuleForRetake uid mid s).progress.get ⟨i, h2⟩).user_id
        = (s.progress.get ⟨i, h1⟩).user_id
    ∧ ((resetModuleForRetake uid mid s).progress.get ⟨i, h2⟩).module_id
        = (s.progress.get ⟨i, h1⟩).module_id
    ∧ ((resetModuleForRetake uid mid s).progress.get ⟨i, h2⟩).title
        = (s.progress.get ⟨i, h1⟩).title
    ∧ ((resetModuleForRetake uid mid s).progress.get ⟨i, h2⟩).description
        = (s.progress.get ⟨i, h1⟩).description
    ∧ ((resetModuleForRetake uid mid s).progress.get ⟨i, h2⟩).difficulty
        = (s.progress.get ⟨i, h1⟩).difficulty
    ∧ ((resetModuleForRetake uid mid s).progress.get ⟨i, h2⟩).estimated_duration
        = (s.progress.get ⟨i, h1⟩).estimated_duration
    ∧ ((resetModuleForRetake uid mid s).progress.get ⟨i, h2⟩).points_reward
        = (s.progress.get ⟨i, h1⟩).points_reward
    ∧ ((resetModuleForRetake uid mid s).progress.get ⟨i, h2⟩).detailed_content
        = (s.progress.get ⟨i, h1⟩).detailed_content
    ∧ ((resetModuleForRetake uid mid s).progress.get ⟨i, h2⟩).level
        = (s.progress.get ⟨i, h1⟩).level
    ∧ ((resetModuleForRetake uid mid s).progress.get ⟨i, h2⟩).progress_percentage
        = (if umpMatch uid mid (s.progress.get ⟨i, h1⟩) then 0
           else (s.progress.get ⟨i, h1⟩).progress_percentage)
    ∧ ((resetModuleForRetake uid mid s).progress.get ⟨i, h2⟩).is_completed
        = (if umpMatch uid mid (s.progress.get ⟨i, h1⟩) then false
           else (s.progress.get ⟨i, h1⟩).is_completed)
    ∧ ((resetModuleForRetake uid mid s).progress.get ⟨i, h2⟩).is_read_only
        = (if umpMatch uid mid (s.progress.get ⟨i, h1⟩) then false
           else (s.progress.get ⟨i, h1⟩).is_read_only) := by
  have hget : (resetModuleForRetake uid mid s).progress.get ⟨i, h2⟩
      = (if umpMatch uid mid (s.progress.get ⟨i, h1⟩) then
          { s.progress.get ⟨i, h1⟩ with
            progress_percentage := 0, is_completed := false, is_read_only := false }
         else s.progress.get ⟨i, h1⟩) := by
    simp [resetModuleForRetake, List.get_eq_getElem, List.getElem_map]
  rw [hget]
  simp only [List.get_eq_getElem]
  by_cases hm : umpMatch uid mid s.progress[i] = true <;>
    simp [resetModuleForRetake, hm]

/-- C8 witness: the frame property evaluated at row 0 of the sample state. -/
theorem reset_frame_witness :
    (resetModuleForRetake "u1" "m1" sampleState).profiles = sampleState.profiles
    ∧ (resetModuleForRetake "u1" "m1" sampleState).badges = sampleState.badges :=
  ⟨(reset_frame "u1" "m1" sampleState 0 (by decide) (by decide)).1,
   (reset_frame "u1" "m1" sampleState 0 (by decide) (by decide)).2.1⟩

/-- C9: for every non-negative duration and every difficulty string (an
unrecognized difficulty gets multiplier 1), calculatePointsReward returns
an integer that is at least 5 and a multiple of 5, and it equals
max(5, round(round(round(duration / 10) * multiplier) / 5) * 5). -/
theorem calculatePointsReward_spec (duration : ℚ) (difficulty : String)
    (h : 0 ≤ duration) :
    5 ≤ calculatePointsReward duration difficulty
    ∧ (5:ℤ) ∣ calculatePointsReward duration difficulty
    ∧ calculatePointsReward duration difficulty
        = max 5 (jsRound ((jsRound ((jsRound (duration / 10) : ℚ)
            * (if difficulty = "beginner" then 1
               else if difficulty = "intermediate" then 3 / 2
               else if difficulty = "advanced" then 2 else 1)) : ℚ) / 5) * 5) :=
  ⟨le_max_left _ _, max5_dvd _, rfl⟩

/-- C9 witness: the reward facts at duration 30 and difficulty
intermediate. -/
theorem calculatePointsReward_spec_witness :
    5 ≤ calculatePointsReward 30 "intermediate"
    ∧ (5:ℤ) ∣ calculatePointsReward 30 "intermediate" :=
  ⟨(calculatePointsReward_spec 30 "intermediate" (by norm_num)).1,
   (calculatePointsReward_spec 30 "intermediate" (by norm_num)).2.1⟩

/-- C10: the deduplication reduce of the modules query returns a list in
which each module_id occurs at most once, every returned element is an
element of the input, and the deduplication is idempotent. -/
theorem uniqueModules_spec (data : List ProgressRow) :
    ((uniqueModules data).map (fun r => r.module_id)).Nodup
    ∧ uniqueModules data ⊆ data
    ∧ uniqueModules (uniqueModules data) = uniqueModules data := by
  have hnd : ((uniqueModules data).map (fun r => r.module_id)).Nodup :=
    foldl_dedupInsert_nodup data [] (by simp)
  refine ⟨hnd, ?_, ?_⟩
  · intro x hx
    rcases foldl_dedupInsert_subset data [] x hx with h | h
    · simp at h
    · exact h
  · have h2 := foldl_dedupInsert_of_nodup (uniqueModules data) [] (by simpa using hnd)
    simpa [uniqueModules] using h2

end AfricaAI
